import Mathlib

/-!
Verification development for the PhiCP estimator
(`httcp/production/PhiCP_Estimator.py`).

The estimator is a pure, per-event (batched) geometric pipeline
computing the CP-sensitive acoplanarity angle from tau-decay products:
vector selection (`_prepareVecs`), frame selection (`_getBoost`),
restructuring (`_reStructureVecs` / `_pv`) and the angle computation
(`ComputeAcopAngle` with `_getSign`).

The embedding works at the per-event level: each awkward-array slot is a
single vector (or a list of vectors where the source indexes pion
collections), since every operation of the source is an elementwise
array transform.  Machine floats are embedded as real numbers; the one
place where IEEE semantics matters (`np.arccos` returning NaN outside
[-1, 1]) is modelled with `Option ℝ`, `none` standing for NaN, which all
subsequent arithmetic and the `ak.where` wrap steps propagate unchanged
(every comparison with NaN is false, so each `ak.where` keeps NaN).
-/

namespace PhiCP

noncomputable section

/-- Spatial 3-vector (one awkward-array slot). -/
structure Vec3 where
  x : ℝ
  y : ℝ
  z : ℝ

/-- Euclidean dot product of two 3-vectors (coffea `ThreeVector.dot`). -/
def Vec3.dot (a b : Vec3) : ℝ :=
  a.x * b.x + a.y * b.y + a.z * b.z

/-- Cross product of two 3-vectors (coffea `ThreeVector.cross`). -/
def Vec3.cross (a b : Vec3) : Vec3 :=
  ⟨a.y * b.z - a.z * b.y, a.z * b.x - a.x * b.z, a.x * b.y - a.y * b.x⟩

/-- Componentwise sum. -/
def Vec3.add (a b : Vec3) : Vec3 :=
  ⟨a.x + b.x, a.y + b.y, a.z + b.z⟩

/-- Componentwise difference. -/
def Vec3.sub (a b : Vec3) : Vec3 :=
  ⟨a.x - b.x, a.y - b.y, a.z - b.z⟩

/-- Scalar multiple. -/
def Vec3.smul (s : ℝ) (a : Vec3) : Vec3 :=
  ⟨s * a.x, s * a.y, s * a.z⟩

/-- Componentwise negation (coffea `negative()`). -/
def Vec3.neg (a : Vec3) : Vec3 :=
  ⟨-a.x, -a.y, -a.z⟩

/-- Euclidean norm (coffea `rho`). -/
def Vec3.norm (a : Vec3) : ℝ :=
  Real.sqrt (a.x ^ 2 + a.y ^ 2 + a.z ^ 2)

/-- Unit vector in the direction of `a` (coffea `unit`). -/
def Vec3.unit (a : Vec3) : Vec3 :=
  ⟨a.x / a.norm, a.y / a.norm, a.z / a.norm⟩

/-- Lorentz four-vector (coffea `LorentzVector`, one array slot). -/
structure FourVec where
  x : ℝ
  y : ℝ
  z : ℝ
  t : ℝ

/-- Four-vector sum. -/
def FourVec.add (a b : FourVec) : FourVec :=
  ⟨a.x + b.x, a.y + b.y, a.z + b.z, a.t + b.t⟩

/-- Four-vector difference (coffea `subtract`). -/
def FourVec.sub (a b : FourVec) : FourVec :=
  ⟨a.x - b.x, a.y - b.y, a.z - b.z, a.t - b.t⟩

/-- Spatial part (coffea `pvec`). -/
def FourVec.pvec (a : FourVec) : Vec3 :=
  ⟨a.x, a.y, a.z⟩

/-- Energy component (coffea `energy`). -/
def FourVec.energy (a : FourVec) : ℝ := a.t

/-- Minkowski inner product (coffea `LorentzVector.dot`). -/
def FourVec.mdot (a b : FourVec) : ℝ :=
  a.t * b.t - a.x * b.x - a.y * b.y - a.z * b.z

/-- Invariant mass squared (coffea `mass2`). -/
def FourVec.mass2 (a : FourVec) : ℝ :=
  a.mdot a

/-- Invariant mass (coffea `mass = sqrt(mass2)`). -/
def FourVec.mass (a : FourVec) : ℝ :=
  Real.sqrt a.mass2

/-- Boost 3-velocity of a four-vector, `pvec / energy`
(coffea `boostvec`). -/
def FourVec.boostvec (a : FourVec) : Vec3 :=
  ⟨a.x / a.t, a.y / a.t, a.z / a.t⟩

/-- Lorentz boost of `v` by the velocity 3-vector `b`
(coffea `LorentzVector.boost`). -/
def FourVec.boost (v : FourVec) (b : Vec3) : FourVec :=
  let b2 := b.x ^ 2 + b.y ^ 2 + b.z ^ 2
  let gamma := 1 / Real.sqrt (1 - b2)
  let gamma2 := if b2 = 0 then 0 else (gamma - 1) / b2
  let bp := v.x * b.x + v.y * b.y + v.z * b.z
  ⟨v.x + gamma2 * bp * b.x + gamma * b.x * v.t,
   v.y + gamma2 * bp * b.y + gamma * b.y * v.t,
   v.z + gamma2 * bp * b.z + gamma * b.z * v.t,
   gamma * (v.t + bp)⟩

/-- One decay-candidate record (`hcand` slot): four-momentum, electric
charge and impact-parameter components, as carried by the awkward
candidate records of the source. -/
structure Cand where
  p4 : FourVec
  charge : ℝ
  IPx : ℝ
  IPy : ℝ
  IPz : ℝ

/-! ## AngleComputer (`ComputeAcopAngle`, source lines 113-162) -/

/-- Model of `np.arccos`: NaN (here `none`) outside the domain [-1, 1],
the real arccosine inside.  The source applies it with no clipping. -/
def npArccos (v : ℝ) : Option ℝ :=
  if v < -1 ∨ 1 < v then none else some (Real.arccos v)

/-- Sign resolution `_getSign` (source lines 166-173): the (P, H) pair
is chosen by the sign of `C1` alone; the parameter `C2` is accepted but
never read, exactly as in the source. -/
def getSign (P1 H1 P2 H2 : Vec3) (C1 C2 : ℝ) : ℝ :=
  let Pm := if C1 < 0 then P1 else P2
  let Hm := if C1 < 0 then H1 else H2
  let Hp := if C1 < 0 then H2 else H1
  Pm.dot (Hp.cross Hm)

/-- Sign step of `ComputeAcopAngle` (source line 152):
`acop = ak.where(sign < 0.0, 2.*np.pi - acop, acop)`. -/
def signStep (acop sign : ℝ) : ℝ :=
  if sign < 0 then 2 * Real.pi - acop else acop

/-- Combination of the two phase-shift discriminants
(source lines 140-148): product if both present, else whichever is
present, else absent. -/
def combineY : Option ℝ → Option ℝ → Option ℝ
  | some y1, some y2 => some (y1 * y2)
  | some y1, none => some y1
  | none, some y2 => some y2
  | none, none => none

/-- Phase-shift step of `ComputeAcopAngle` (source lines 153-154):
if `Y` is present, `acop = ak.where(Y < 0.0, acop + np.pi, acop)`. -/
def yStep (acop : ℝ) (Y : Option ℝ) : ℝ :=
  match Y with
  | some yv => if yv < 0 then acop + Real.pi else acop
  | none => acop

/-- Final wrap of `ComputeAcopAngle` (source lines 160-161): subtract
2π when strictly above 2π, then add 2π when strictly below 0. -/
def wrapStep (a : ℝ) : ℝ :=
  let b := if 2 * Real.pi < a then a - 2 * Real.pi else a
  if b < 0 then b + 2 * Real.pi else b

/-- The ten named components extracted by `ComputeAcopAngle`
(source lines 129-138), per event. -/
structure Vecs where
  P1 : Vec3
  R1 : Vec3
  H1 : Vec3
  C1 : ℝ
  P2 : Vec3
  R2 : Vec3
  H2 : Vec3
  C2 : ℝ
  Y1 : Option ℝ
  Y2 : Option ℝ

/-- Numeric core of `ComputeAcopAngle` (source lines 140-162):
`arccos(R1 · R2)`, sign correction, phase-shift correction, wrap.
A NaN produced by the unclipped `np.arccos` propagates through every
later step (all `ak.where` comparisons with NaN are false), hence the
`Option.map`. -/
def computeAcopAngle (v : Vecs) : Option ℝ :=
  let Y := combineY v.Y1 v.Y2
  (npArccos (v.R1.dot v.R2)).map
    (fun raw =>
      wrapStep (yStep (signStep raw (getSign v.P1 v.H1 v.P2 v.H2 v.C1 v.C2)) Y))

/-! ## VectorSelector (`_prepareVecs`, source lines 211-276) -/

/-- One-element slice `l[i : i+1]` of a per-event pion list, mirroring
the awkward slices `p4_pi[:, i:i+1]` of the source. -/
def sliceAt (l : List FourVec) (i : Nat) : List FourVec :=
  (l.drop i).take 1

/-- Elementwise `ak.where(cond, a, b)` over aligned per-event lists. -/
def whereList (c : List Bool) (a b : List FourVec) : List FourVec :=
  match c, a, b with
  | cb :: cs, v :: vs, w :: ws => (if cb then v else w) :: whereList cs vs ws
  | _, _, _ => []

/-- Rho-mass-closest charged-pion choice for the DP/a1 branch
(`_get_pi_a1_DP`, source lines 382-386): compare the invariant masses
of `pion[0]+pion[1]` and `pion[0]+pion[2]` against 0.77526 and keep the
sliced `pion[1]` when the first is strictly closer, else `pion[2]`. -/
def get_pi_a1_DP (p4_pi : List FourVec) : List FourVec :=
  let Minv1 := (List.zipWith FourVec.add (sliceAt p4_pi 0) (sliceAt p4_pi 1)).map FourVec.mass
  let Minv2 := (List.zipWith FourVec.add (sliceAt p4_pi 0) (sliceAt p4_pi 2)).map FourVec.mass
  whereList (List.zipWith (fun m1 m2 => |0.77526 - m1| < |0.77526 - m2|) Minv1 Minv2)
    (sliceAt p4_pi 1) (sliceAt p4_pi 2)

/-- Value selected by `_prepareVecs` for `_P` or `_R`: either the whole
candidate record or (a slice of) the charged-pion collection. -/
inductive SelVec where
  | cand (c : Cand)
  | pis (l : List FourVec)

/-- Selection dispatch `_prepareVecs` (source lines 211-276).  `_P` and
`_R` start as Python `None` and the `IP` branch has no trailing `else`,
so an `IP` call with any mode other than `e`/`mu`/`pi` falls through and
silently returns `(None, None, charge)`: hence the `Option SelVec`
components.  Unknown methods and bad `DP` modes raise
(`Except.error`). -/
def prepareVecs (hcand : Cand) (hcand_pi : List FourVec) (hcand_pi0 : List FourVec)
    (leg_method leg_mode : String) :
    Except String (Option SelVec × Option SelVec × ℝ) :=
  if leg_method = "DP" then
    if leg_mode = "rho" then
      .ok (some (.pis hcand_pi), some (.pis hcand_pi0), hcand.charge)
    else if leg_mode = "a1" then
      .ok (some (.pis (get_pi_a1_DP hcand_pi)), some (.pis (sliceAt hcand_pi 0)), hcand.charge)
    else
      .error ("Wrong mode : " ++ leg_mode)
  else if leg_method = "PV" then
    .ok (some (.cand hcand), some (.pis hcand_pi), hcand.charge)
  else if leg_method = "IP" then
    if leg_mode = "e" ∨ leg_mode = "mu" then
      .ok (some (.cand hcand), some (.cand hcand), hcand.charge)
    else if leg_mode = "pi" then
      .ok (some (.pis hcand_pi), some (.cand hcand), hcand.charge)
    else
      .ok (none, none, hcand.charge)
  else
    .error ("Wrong " ++ leg_method)

/-! ## FrameSelector (`_getBoost`, source lines 176-208) -/

/-- Frame selection `_getBoost` (source lines 198-208): the frame is
`R1 + R2` exactly for the PV/PV pi/pi configuration, `P1 + P2`
otherwise, and the returned boost vector is the 3-velocity of the
summed four-vector.  `PrepareVecsForPhiCP` computes it once per event
pair and hands the same vector to both legs. -/
def getBoost (P1 R1 P2 R2 : FourVec)
    (leg1_method leg2_method leg1_mode leg2_mode : String) : Vec3 :=
  let frame :=
    if leg1_method = "PV" ∧ leg2_method = "PV" then
      if leg1_mode = "pi" ∧ leg2_mode = "pi" then R1.add R2 else P1.add P2
    else
      P1.add P2
  frame.boostvec

/-! ## VectorRestructurer, PV branch (`_pv`, source lines 389-419) -/

/-- Modelled from the spec: the external a1 polarimetric-vector
algorithm (`httcp.production.PolarimetricA1`, imported by the source
but not part of it) is a black box taking the boosted tau, the boosted
opposite-sign pion slice, the two boosted same-sign pion slices and the
tau charge, and returning polarimetric four-vectors (the `PVC()`
accessor).  The embedding abstracts it as a function parameter. -/
def PolA1Fn : Type :=
  FourVec → List FourVec → List FourVec → List FourVec → ℝ → List FourVec

/-- Polarimetric-vector construction `_pv` (source lines 389-419),
per event: boost the tau, dispatch on the mode to build the
polarimetric vector (`pi`: boosted-pion momentum; `rho`:
`2(q·N)q - q²N` from `q = pi - pi0`, `N = tau - (pi + pi0)`; `a1`:
negated external polarimetric vector), raise on any other mode; then
return `(P, R, H) = (unit tau momentum, unit (H × P), unit pv)`. -/
def pvFn (boostv : Vec3) (tau : Cand) (pi : List FourVec) (pi0 : List FourVec)
    (leg_mode : String) (polA1 : PolA1Fn) :
    Except String (Vec3 × List Vec3 × List Vec3) :=
  let P := tau.p4.boost boostv.neg
  let pvE : Except String (List Vec3) :=
    if leg_mode = "pi" then
      .ok (pi.map (fun q => (q.boost boostv.neg).pvec))
    else if leg_mode = "rho" then
      let pib := pi.map (fun q => q.boost boostv.neg)
      let pi0b := pi0.map (fun q => q.boost boostv.neg)
      let q := List.zipWith FourVec.sub pib pi0b
      let N := (List.zipWith FourVec.add pib pi0b).map (fun s => P.sub s)
      .ok (List.zipWith
        (fun qq nn =>
          (Vec3.smul (2 * qq.mdot nn) qq.pvec).sub (Vec3.smul qq.mass2 nn.pvec)) q N)
    else if leg_mode = "a1" then
      let os_pi_HRF := (sliceAt pi 0).map (fun q => q.boost boostv.neg)
      let ss1_pi_HRF := (sliceAt pi 1).map (fun q => q.boost boostv.neg)
      let ss2_pi_HRF := (sliceAt pi 2).map (fun q => q.boost boostv.neg)
      .ok ((polA1 P os_pi_HRF ss1_pi_HRF ss2_pi_HRF tau.charge).map
        (fun w => w.pvec.neg))
    else
      .error ("Wrong mode: " ++ leg_mode)
  match pvE with
  | .error e => .error e
  | .ok pv =>
    let Pu := P.pvec.unit
    let H := pv.map Vec3.unit
    let R := H.map (fun h => (h.cross Pu).unit)
    .ok (Pu, R, H)

end

/-! ## Structural check of `ComputeAcopAngle` (source lines 128-138) -/

/-- The ten component names read by `ComputeAcopAngle`, in source
order (lines 129-138). -/
def tenNames : List String :=
  ["P1", "R1", "H1", "C1", "P2", "R2", "H2", "C2", "Y1", "Y2"]

/-- Structural phase of `ComputeAcopAngle` (source lines 128-138),
before any numeric work: `assert len(vecsdict) == 10` (AssertionError
with the quoted message when violated), then the ten key subscripts,
each of which raises a KeyError when the name is absent.  The dict is
embedded as an association list with distinct keys. -/
def checkStructure {α : Type} (d : List (String × α)) :
    Except String (α × α × α × α × α × α × α × α × α × α) :=
  if d.length = 10 then
    match d.lookup "P1", d.lookup "R1", d.lookup "H1", d.lookup "C1",
        d.lookup "P2", d.lookup "R2", d.lookup "H2", d.lookup "C2",
        d.lookup "Y1", d.lookup "Y2" with
    | some p1, some r1, some h1, some c1, some p2, some r2, some h2, some c2,
      some y1, some y2 =>
      .ok (p1, r1, h1, c1, p2, r2, h2, c2, y1, y2)
    | _, _, _, _, _, _, _, _, _, _ => .error "KeyError"
  else
    .error "input dict to ComputeAcopAngle does not have proper structure"

/-! ## Claim theorems -/

/-- Claim C4: the frame selection returns the boost 3-velocity of
`R1 + R2` exactly when both legs use method PV and both modes are
`pi`, and the boost 3-velocity of `P1 + P2` for every other
combination of methods and modes. -/
theorem C4_frame_rule (P1 R1 P2 R2 : FourVec) (m1 m2 mo1 mo2 : String) :
    getBoost P1 R1 P2 R2 m1 m2 mo1 mo2 =
      if m1 = "PV" ∧ m2 = "PV" ∧ mo1 = "pi" ∧ mo2 = "pi" then (R1.add R2).boostvec
      else (P1.add P2).boostvec := by
  unfold getBoost
  by_cases h1 : m1 = "PV" ∧ m2 = "PV"
  · by_cases h2 : mo1 = "pi" ∧ mo2 = "pi"
    · have hall : m1 = "PV" ∧ m2 = "PV" ∧ mo1 = "pi" ∧ mo2 = "pi" :=
        ⟨h1.1, h1.2, h2.1, h2.2⟩
      simp [h1, h2, hall]
    · have hall : ¬(m1 = "PV" ∧ m2 = "PV" ∧ mo1 = "pi" ∧ mo2 = "pi") := by tauto
      simp [h1, h2, hall]
  · have hall : ¬(m1 = "PV" ∧ m2 = "PV" ∧ mo1 = "pi" ∧ mo2 = "pi") := by tauto
    simp [h1, hall]

/-- Claim C3, counterexample: calling the vector selection with method
`IP` and mode `rho` does not fail — it silently returns `None` for both
`_P` and `_R` together with the candidate charge, contradicting the
claim that every disallowed pair fails with an error at vector
selection or restructuring. -/
theorem C3_counterexample :
    prepareVecs ⟨⟨0, 0, 0, 0⟩, 1, 0, 0, 0⟩ [] [] "IP" "rho" =
      Except.ok (none, none, (1 : ℝ)) := rfl

/-- Claim C3, amended: `DP` with mode `pi` and unknown methods fail at
vector selection; `PV` with modes `e`/`mu` passes selection unchecked
and fails at restructuring (`_pv`); but `IP` with mode `rho` or `a1`
silently returns `(None, None, charge)` from vector selection instead
of failing there. -/
theorem C3_dispatch (c : Cand) (pis pi0s : List FourVec) (bv : Vec3) (pol : PolA1Fn) :
    prepareVecs c pis pi0s "DP" "pi" = Except.error "Wrong mode : pi"
    ∧ prepareVecs c pis pi0s "PV" "e" =
        Except.ok (some (SelVec.cand c), some (SelVec.pis pis), c.charge)
    ∧ pvFn bv c pis pi0s "e" pol = Except.error "Wrong mode: e"
    ∧ pvFn bv c pis pi0s "mu" pol = Except.error "Wrong mode: mu"
    ∧ prepareVecs c pis pi0s "IP" "rho" = Except.ok (none, none, c.charge)
    ∧ prepareVecs c pis pi0s "IP" "a1" = Except.ok (none, none, c.charge)
    ∧ prepareVecs c pis pi0s "XX" "rho" = Except.error "Wrong XX" :=
  ⟨rfl, rfl, rfl, rfl, rfl, rfl, rfl⟩

/-- Claim C7: for method DP with mode a1 on an event with exactly three
charged pions (opposite-sign first), vector selection returns as `R`
the slice holding `pion[0]` and as `P` the slice holding `pion[1]` when
the invariant mass of `pion[0]+pion[1]` is strictly closer to 0.77526
than that of `pion[0]+pion[2]`, else `pion[2]`. -/
theorem C7_a1_selection (c : Cand) (pi0 pi1 pi2 : FourVec) (pi0s : List FourVec) :
    prepareVecs c [pi0, pi1, pi2] pi0s "DP" "a1" =
      Except.ok
        (some (SelVec.pis
          [if |0.77526 - (pi0.add pi1).mass| < |0.77526 - (pi0.add pi2).mass|
           then pi1 else pi2]),
         some (SelVec.pis [pi0]), c.charge) := by
  simp [prepareVecs, get_pi_a1_DP, sliceAt, whereList]

/-- Claim C10: the sign determination reads only the sign of `C1`:
when `C1 < 0` it uses `(P1, H1)` with `Hp = H2`, otherwise `(P2, H2)`
with `Hp = H1`, regardless of `C2`; hence two runs of the angle
computation differing only in `C2` produce identical output. -/
theorem C10_sign_independent_of_C2 (v : Vecs) (c : ℝ) :
    (getSign v.P1 v.H1 v.P2 v.H2 v.C1 v.C2 =
      if v.C1 < 0 then v.P1.dot (v.H2.cross v.H1) else v.P2.dot (v.H1.cross v.H2))
    ∧ computeAcopAngle { v with C2 := c } = computeAcopAngle v := by
  constructor
  · unfold getSign
    split <;> rfl
  · rfl

/-- Claim C6: the phase-shift combination yields `Y1·Y2` when both
discriminants are present, the present one when exactly one is, and
nothing when neither is; a present negative `Y` adds exactly π to the
angle and a present nonnegative or absent `Y` leaves it unchanged. -/
theorem C6_phase_shift (y1 y2 a : ℝ) :
    combineY (some y1) (some y2) = some (y1 * y2)
    ∧ combineY (some y1) none = some y1
    ∧ combineY none (some y2) = some y2
    ∧ combineY none none = none
    ∧ (y1 * y2 < 0 → yStep a (combineY (some y1) (some y2)) = a + Real.pi)
    ∧ (0 ≤ y1 * y2 → yStep a (combineY (some y1) (some y2)) = a)
    ∧ yStep a (combineY none none) = a := by
  refine ⟨rfl, rfl, rfl, rfl, ?_, ?_, rfl⟩
  · intro h
    simp only [combineY, yStep]
    rw [if_pos h]
  · intro h
    simp only [combineY, yStep]
    rw [if_neg (not_lt.mpr h)]

/-- Claim C6 witness: a concrete negative product shifts the angle by
exactly π. -/
theorem C6_phase_shift_witness :
    yStep 0 (combineY (some (-1 : ℝ)) (some (1 : ℝ))) = 0 + Real.pi :=
  (C6_phase_shift (-1) 1 0).2.2.2.2.1 (by norm_num)

/-- The sign step keeps an arccos output inside `[0, 2π]`. -/
lemma signStep_bounds (raw s : ℝ) (h0 : 0 ≤ raw) (hpi : raw ≤ Real.pi) :
    0 ≤ signStep raw s ∧ signStep raw s ≤ 2 * Real.pi := by
  unfold signStep
  split
  · constructor <;> nlinarith [Real.pi_pos]
  · exact ⟨h0, by nlinarith [Real.pi_pos]⟩

/-- The phase-shift step keeps a value of `[0, 2π]` inside `[0, 3π]`. -/
lemma yStep_bounds (a : ℝ) (Y : Option ℝ) (h0 : 0 ≤ a) (h2 : a ≤ 2 * Real.pi) :
    0 ≤ yStep a Y ∧ yStep a Y ≤ 3 * Real.pi := by
  cases Y with
  | none =>
    simp only [yStep]
    exact ⟨h0, by nlinarith [Real.pi_pos]⟩
  | some yv =>
    simp only [yStep]
    split
    · constructor <;> nlinarith [Real.pi_pos]
    · exact ⟨h0, by nlinarith [Real.pi_pos]⟩

/-- The wrap is the identity on `[0, 2π]`. -/
lemma wrapStep_eq_self (a : ℝ) (h0 : 0 ≤ a) (h2 : a ≤ 2 * Real.pi) :
    wrapStep a = a := by
  simp only [wrapStep]
  rw [if_neg (not_lt.mpr h2), if_neg (not_lt.mpr h0)]

/-- The wrap maps `[0, 3π]` into `[0, 2π]`. -/
lemma wrapStep_bounds (a : ℝ) (h0 : 0 ≤ a) (h3 : a ≤ 3 * Real.pi) :
    0 ≤ wrapStep a ∧ wrapStep a ≤ 2 * Real.pi := by
  simp only [wrapStep]
  split
  · next h =>
    have hb0 : 0 ≤ a - 2 * Real.pi := by linarith
    rw [if_neg (not_lt.mpr hb0)]
    exact ⟨hb0, by nlinarith [Real.pi_pos]⟩
  · next h =>
    rw [if_neg (not_lt.mpr h0)]
    exact ⟨h0, not_lt.mp h⟩

/-- Claim C9: every pre-wrap angle of the pipeline is of the form
`yStep (signStep (arccos x) s) Y`, and on such values applying the
final wrap twice equals applying it once. -/
theorem C9_wrap_idempotent (x s : ℝ) (Y : Option ℝ) :
    wrapStep (wrapStep (yStep (signStep (Real.arccos x) s) Y)) =
      wrapStep (yStep (signStep (Real.arccos x) s) Y) := by
  have h1 := signStep_bounds (Real.arccos x) s (Real.arccos_nonneg x) (Real.arccos_le_pi x)
  have h2 := yStep_bounds _ Y h1.1 h1.2
  have h3 := wrapStep_bounds _ h2.1 h2.2
  exact wrapStep_eq_self _ h3.1 h3.2

/-- Claim C1, amended: every angle produced by the angle computation
lies in the closed interval `[0, 2π]` (the boundary `2π` itself is
attainable, see the counterexample). -/
theorem C1_range (v : Vecs) (a : ℝ) (h : computeAcopAngle v = some a) :
    0 ≤ a ∧ a ≤ 2 * Real.pi := by
  simp only [computeAcopAngle, npArccos] at h
  by_cases hd : v.R1.dot v.R2 < -1 ∨ 1 < v.R1.dot v.R2
  · rw [if_pos hd] at h
    simp at h
  · rw [if_neg hd] at h
    simp only [Option.map_some'] at h
    rw [Option.some_inj] at h
    subst h
    have h1 := signStep_bounds (Real.arccos (v.R1.dot v.R2))
      (getSign v.P1 v.H1 v.P2 v.H2 v.C1 v.C2)
      (Real.arccos_nonneg _) (Real.arccos_le_pi _)
    have h2 := yStep_bounds _ (combineY v.Y1 v.Y2) h1.1 h1.2
    exact wrapStep_bounds _ h2.1 h2.2

/-- Claim C1, counterexample: with both unit `R` vectors equal
(`R1 · R2 = 1`, arccos 0) and a negative triple-product sign, the sign
step yields exactly `2π`, which the strict-inequality wrap leaves
untouched: the boundary value `2π` is emitted, so the output is not in
the half-open interval `[0, 2π)`. -/
theorem C1_counterexample :
    computeAcopAngle ⟨⟨0, 0, -1⟩, ⟨1, 0, 0⟩, ⟨0, 1, 0⟩, -1, ⟨0, 0, 0⟩, ⟨1, 0, 0⟩, ⟨1, 0, 0⟩, 1,
        none, none⟩ = some (2 * Real.pi)
    ∧ ¬ 2 * Real.pi < 2 * Real.pi := by
  constructor
  · simp only [computeAcopAngle]
    norm_num [npArccos, Real.arccos_one, getSign, Vec3.dot, Vec3.cross, combineY,
      signStep, yStep]
    simp only [wrapStep]
    rw [if_neg (lt_irrefl _), if_neg (not_lt.mpr (by positivity))]
  · exact lt_irrefl _

/-- Claim C1 witness (for the amended range theorem): a concrete input
whose output is 0, lying in `[0, 2π]`. -/
theorem C1_range_witness :
    computeAcopAngle ⟨⟨0, 0, 1⟩, ⟨1, 0, 0⟩, ⟨0, 1, 0⟩, 1, ⟨0, 0, 0⟩, ⟨1, 0, 0⟩, ⟨1, 0, 0⟩, -1,
        none, none⟩ = some 0
    ∧ (0 ≤ (0 : ℝ) ∧ (0 : ℝ) ≤ 2 * Real.pi) := by
  have h : computeAcopAngle ⟨⟨0, 0, 1⟩, ⟨1, 0, 0⟩, ⟨0, 1, 0⟩, 1, ⟨0, 0, 0⟩, ⟨1, 0, 0⟩,
      ⟨1, 0, 0⟩, -1, none, none⟩ = some 0 := by
    simp only [computeAcopAngle]
    norm_num [npArccos, Real.arccos_one, getSign, Vec3.dot, Vec3.cross, combineY,
      signStep, yStep]
    simp only [wrapStep]
    rw [if_neg (not_lt.mpr (by positivity : (0 : ℝ) ≤ 2 * Real.pi)), if_neg (lt_irrefl 0)]
  exact ⟨h, C1_range _ 0 h⟩

/-- Claim C2, code evaluation at the failing input: the source applies
`np.arccos` to `R1 · R2` with no clipping, so a dot product
overshooting 1 (here `1.0000001`, as arises for numerically
near-parallel unit vectors) makes the whole computation yield NaN
(`none`), contradicting the claim that the dot product is clipped to
`[-1, 1]` and NaN is never produced. -/
theorem C2_unclipped_arccos_nan :
    computeAcopAngle ⟨⟨0, 0, 1⟩, ⟨1.0000001, 0, 0⟩, ⟨0, 1, 0⟩, -1, ⟨0, 0, 0⟩, ⟨1, 0, 0⟩,
        ⟨1, 0, 0⟩, 1, none, none⟩ = none := by
  simp only [computeAcopAngle]
  norm_num [npArccos, Vec3.dot]

/-- Claim C5: with the two charges ±1 and opposite, the sign is the
triple product `Pm · (Hp × Hm)` built from the negative-charge leg's
`(P, H)` and the positive-charge leg's `H`, and the raw arccos angle is
replaced by `2π - raw` exactly when the sign is negative and kept
otherwise. -/
theorem C5_sign_rule (P1 H1 P2 H2 : Vec3) (C1 C2 raw : ℝ)
    (h : (C1 = -1 ∧ C2 = 1) ∨ (C1 = 1 ∧ C2 = -1)) :
    (getSign P1 H1 P2 H2 C1 C2 =
      if C1 = -1 then P1.dot (H2.cross H1) else P2.dot (H1.cross H2))
    ∧ (getSign P1 H1 P2 H2 C1 C2 < 0 →
        signStep raw (getSign P1 H1 P2 H2 C1 C2) = 2 * Real.pi - raw)
    ∧ (0 ≤ getSign P1 H1 P2 H2 C1 C2 →
        signStep raw (getSign P1 H1 P2 H2 C1 C2) = raw) := by
  refine ⟨?_, ?_, ?_⟩
  · rcases h with ⟨h1, _⟩ | ⟨h1, _⟩ <;> subst h1 <;> simp only [getSign] <;> norm_num
  · intro hs
    simp only [signStep]
    rw [if_pos hs]
  · intro hs
    simp only [signStep]
    rw [if_neg (not_lt.mpr hs)]

/-- Claim C5 witness: the sign rule applied at a concrete
opposite-charge input. -/
theorem C5_sign_rule_witness :
    (getSign ⟨0, 0, 1⟩ ⟨0, 1, 0⟩ ⟨0, 0, 0⟩ ⟨1, 0, 0⟩ (-1) 1 =
      if (-1 : ℝ) = -1 then Vec3.dot ⟨0, 0, 1⟩ (Vec3.cross ⟨1, 0, 0⟩ ⟨0, 1, 0⟩)
      else Vec3.dot ⟨0, 0, 0⟩ (Vec3.cross ⟨0, 1, 0⟩ ⟨1, 0, 0⟩))
    ∧ (getSign ⟨0, 0, 1⟩ ⟨0, 1, 0⟩ ⟨0, 0, 0⟩ ⟨1, 0, 0⟩ (-1) 1 < 0 →
        signStep 0 (getSign ⟨0, 0, 1⟩ ⟨0, 1, 0⟩ ⟨0, 0, 0⟩ ⟨1, 0, 0⟩ (-1) 1) =
          2 * Real.pi - 0)
    ∧ (0 ≤ getSign ⟨0, 0, 1⟩ ⟨0, 1, 0⟩ ⟨0, 0, 0⟩ ⟨1, 0, 0⟩ (-1) 1 →
        signStep 0 (getSign ⟨0, 0, 1⟩ ⟨0, 1, 0⟩ ⟨0, 0, 0⟩ ⟨1, 0, 0⟩ (-1) 1) = 0) :=
  C5_sign_rule ⟨0, 0, 1⟩ ⟨0, 1, 0⟩ ⟨0, 0, 0⟩ ⟨1, 0, 0⟩ (-1) 1 0 (Or.inl ⟨rfl, rfl⟩)

/-- Key lookup in an association list succeeds exactly for the keys it
holds. -/
lemma lookup_isSome_iff_mem {α : Type} {d : List (String × α)} {k : String} :
    (d.lookup k).isSome ↔ k ∈ d.map Prod.fst := by
  rw [List.lookup_isSome_iff]
  constructor
  · rintro ⟨p, hp, hbeq⟩
    exact List.mem_map.mpr ⟨p, hp, (beq_iff_eq.mp hbeq).symm⟩
  · intro hk
    obtain ⟨p, hp, hfk⟩ := List.mem_map.mp hk
    exact ⟨p, hp, beq_iff_eq.mpr hfk.symm⟩

/-- The structural phase succeeds exactly when the dict has length 10
and every one of the ten names has an entry (length check = the
`assert`, presence checks = the ten subscripts). -/
lemma checkStructure_ok_iff {α : Type} (d : List (String × α)) :
    (∃ vs, checkStructure d = Except.ok vs) ↔
      (d.length = 10 ∧ ∀ k ∈ tenNames, (d.lookup k).isSome) := by
  constructor
  · rintro ⟨vs, h⟩
    unfold checkStructure at h
    split at h
    · next hlen =>
      refine ⟨hlen, ?_⟩
      split at h
      · next p1 r1 h1v c1 p2 r2 h2v c2 y1 y2 hP1 hR1 hH1 hC1 hP2 hR2 hH2 hC2 hY1 hY2 =>
        intro k hk
        simp only [tenNames, List.mem_cons, List.not_mem_nil, or_false] at hk
        rcases hk with rfl | rfl | rfl | rfl | rfl | rfl | rfl | rfl | rfl | rfl <;>
          simp [hP1, hR1, hH1, hC1, hP2, hR2, hH2, hC2, hY1, hY2]
      · next => simp at h
    · next => simp at h
  · rintro ⟨hlen, hall⟩
    obtain ⟨p1, hP1⟩ := Option.isSome_iff_exists.mp (hall "P1" (by simp [tenNames]))
    obtain ⟨r1, hR1⟩ := Option.isSome_iff_exists.mp (hall "R1" (by simp [tenNames]))
    obtain ⟨h1v, hH1⟩ := Option.isSome_iff_exists.mp (hall "H1" (by simp [tenNames]))
    obtain ⟨c1, hC1⟩ := Option.isSome_iff_exists.mp (hall "C1" (by simp [tenNames]))
    obtain ⟨p2, hP2⟩ := Option.isSome_iff_exists.mp (hall "P2" (by simp [tenNames]))
    obtain ⟨r2, hR2⟩ := Option.isSome_iff_exists.mp (hall "R2" (by simp [tenNames]))
    obtain ⟨h2v, hH2⟩ := Option.isSome_iff_exists.mp (hall "H2" (by simp [tenNames]))
    obtain ⟨c2, hC2⟩ := Option.isSome_iff_exists.mp (hall "C2" (by simp [tenNames]))
    obtain ⟨y1, hY1⟩ := Option.isSome_iff_exists.mp (hall "Y1" (by simp [tenNames]))
    obtain ⟨y2, hY2⟩ := Option.isSome_iff_exists.mp (hall "Y2" (by simp [tenNames]))
    refine ⟨(p1, r1, h1v, c1, p2, r2, h2v, c2, y1, y2), ?_⟩
    unfold checkStructure
    rw [if_pos hlen, hP1, hR1, hH1, hC1, hP2, hR2, hH2, hC2, hY1, hY2]

/-- Claim C8: the structural phase of the angle computation (the part
before any numeric work) accepts a vector dictionary exactly when its
key set is precisely the ten names P1, R1, H1, C1, P2, R2, H2, C2, Y1,
Y2; every other dictionary is rejected there (wrong count by the
assert, wrong names by the key lookups). -/
theorem C8_structure (α : Type) (d : List (String × α))
    (hnd : (d.map Prod.fst).Nodup) :
    (∃ vs, checkStructure d = Except.ok vs) ↔
      (d.map Prod.fst).toFinset = tenNames.toFinset := by
  rw [checkStructure_ok_iff]
  have hten_nodup : tenNames.Nodup := by decide
  constructor
  · rintro ⟨hlen, hall⟩
    have hsub : tenNames.toFinset ⊆ (d.map Prod.fst).toFinset := by
      intro k hk
      rw [List.mem_toFinset] at hk ⊢
      exact lookup_isSome_iff_mem.mp (hall k hk)
    have hcard : (d.map Prod.fst).toFinset.card ≤ tenNames.toFinset.card := by
      rw [List.toFinset_card_of_nodup hnd, List.toFinset_card_of_nodup hten_nodup,
        List.length_map, hlen]
      exact le_refl _
    exact (Finset.eq_of_subset_of_card_le hsub hcard).symm
  · intro hset
    have hlen : d.length = 10 := by
      have h1 : (d.map Prod.fst).toFinset.card = tenNames.toFinset.card := by rw [hset]
      rw [List.toFinset_card_of_nodup hnd, List.toFinset_card_of_nodup hten_nodup,
        List.length_map] at h1
      exact h1
    refine ⟨hlen, ?_⟩
    intro k hk
    rw [lookup_isSome_iff_mem, ← List.mem_toFinset, hset, List.mem_toFinset]
    exact hk

/-- Claim C8 witness: the structural phase accepts a concrete
dictionary holding exactly the ten expected names. -/
theorem C8_structure_witness :
    ∃ vs, checkStructure [("P1", 0), ("R1", 1), ("H1", 2), ("C1", 3), ("P2", 4),
        ("R2", 5), ("H2", 6), ("C2", 7), ("Y1", 8), ("Y2", 9)] = Except.ok vs :=
  (C8_structure ℕ _ (by decide)).mpr rfl

end PhiCP
